import Mathlib

set_option maxRecDepth 100000

/-!
Verification of the response-caching layer of dnscrypt-proxy.

A shallow embedding of `dnscrypt-proxy/plugin_cache.go` (cache key
derivation, the cache reader plugin `PluginCache.Eval`, and the cache
writer plugin `PluginCacheResponse.Eval`) together with boundary models
of its collaborators, and theorems settling the specification claims.

Machine integers are modelled as `Nat` with explicit reduction
`% 2 ^ 64` (resp. `% 256`) where Go's fixed-width arithmetic wraps.
Bytes are `Nat`s (< 256 in every reachable state); byte strings are
`List Nat`.  Time is modelled as a `Nat` number of seconds threaded
explicitly through the operations; Go's `time.Now()` becomes a `now`
parameter.  Go panics (out-of-bounds indexing) are modelled by `Option`.
-/

namespace DCProxy

/-! ## SHA-512/256 over byte lists

The Go source hashes with `crypto/sha512.New512_256()`.  We embed the
full FIPS 180-4 SHA-512/256 function over `List Nat` bytes so that the
key-derivation function is executable end to end. -/

/-- The modulus of 64-bit words, 2^64. -/
def w64 : Nat := 18446744073709551616

/-- Right rotation of a 64-bit word. -/
def rotr64 (x n : Nat) : Nat :=
  ((x >>> n) ||| (x <<< (64 - n))) % w64

/-- Bitwise complement of a 64-bit word. -/
def not64 (x : Nat) : Nat := Nat.xor x (w64 - 1)

/-- SHA-512 `Ch` function. -/
def ch64 (x y z : Nat) : Nat := Nat.xor (Nat.land x y) (Nat.land (not64 x) z)

/-- SHA-512 `Maj` function. -/
def maj64 (x y z : Nat) : Nat :=
  Nat.xor (Nat.xor (Nat.land x y) (Nat.land x z)) (Nat.land y z)

/-- SHA-512 `Σ₀`. -/
def bigSigma0 (x : Nat) : Nat :=
  Nat.xor (Nat.xor (rotr64 x 28) (rotr64 x 34)) (rotr64 x 39)

/-- SHA-512 `Σ₁`. -/
def bigSigma1 (x : Nat) : Nat :=
  Nat.xor (Nat.xor (rotr64 x 14) (rotr64 x 18)) (rotr64 x 41)

/-- SHA-512 `σ₀`. -/
def smallSigma0 (x : Nat) : Nat :=
  Nat.xor (Nat.xor (rotr64 x 1) (rotr64 x 8)) (x >>> 7)

/-- SHA-512 `σ₁`. -/
def smallSigma1 (x : Nat) : Nat :=
  Nat.xor (Nat.xor (rotr64 x 19) (rotr64 x 61)) (x >>> 6)

/-- The 80 SHA-512 round constants. -/
def K512 : List Nat :=
  [4794697086780616226, 8158064640168781261, 13096744586834688815,
   16840607885511220156, 4131703408338449720, 6480981068601479193,
   10538285296894168987, 12329834152419229976, 15566598209576043074,
   1334009975649890238, 2608012711638119052, 6128411473006802146,
   8268148722764581231, 9286055187155687089, 11230858885718282805,
   13951009754708518548, 16472876342353939154, 17275323862435702243,
   1135362057144423861, 2597628984639134821, 3308224258029322869,
   5365058923640841347, 6679025012923562964, 8573033837759648693,
   10970295158949994411, 12119686244451234320, 12683024718118986047,
   13788192230050041572, 14330467153632333762, 15395433587784984357,
   489312712824947311, 1452737877330783856, 2861767655752347644,
   3322285676063803686, 5560940570517711597, 5996557281743188959,
   7280758554555802590, 8532644243296465576, 9350256976987008742,
   10552545826968843579, 11727347734174303076, 12113106623233404929,
   14000437183269869457, 14369950271660146224, 15101387698204529176,
   15463397548674623760, 17586052441742319658, 1182934255886127544,
   1847814050463011016, 2177327727835720531, 2830643537854262169,
   3796741975233480872, 4115178125766777443, 5681478168544905931,
   6601373596472566643, 7507060721942968483, 8399075790359081724,
   8693463985226723168, 9568029438360202098, 10144078919501101548,
   10430055236837252648, 11840083180663258601, 13761210420658862357,
   14299343276471374635, 14566680578165727644, 15097957966210449927,
   16922976911328602910, 17689382322260857208, 500013540394364858,
   748580250866718886, 1242879168328830382, 1977374033974150939,
   2944078676154940804, 3659926193048069267, 4368137639120453308,
   4836135668995329356, 5532061633213252278, 6448918945643986474,
   6902733635092675308, 7801388544844847127]

/-- The SHA-512/256 initial hash value (FIPS 180-4 §5.3.6.2). -/
def IV512_256 : List Nat :=
  [2463787394917988140, 11481187982095705282,
   2563595384472711505, 10824532655140301501,
   10819967247969091555, 13717434660681038226,
   3098927326965381290, 1060366662362279074]

/-- Big-endian encoding of `x` as exactly `n` bytes. -/
def toBytesBE (n x : Nat) : List Nat :=
  (List.range n).map (fun i => (x >>> (8 * (n - 1 - i))) % 256)

/-- Big-endian decoding of a byte list into a number. -/
def bytesToNatBE (bs : List Nat) : Nat :=
  bs.foldl (fun a b => a * 256 + b) 0

/-- Fuel-driven worker for `chunksOf` (structural recursion on the
fuel, so that it reduces inside the kernel). -/
def chunksOfFuel (n : Nat) : Nat → List α → List (List α)
  | _, [] => []
  | 0, _ :: _ => []
  | fuel + 1, x :: xs => ((x :: xs).take n) :: chunksOfFuel n fuel ((x :: xs).drop n)

/-- Split a list into consecutive chunks of size `n` (last chunk may be
shorter); `n = 0` yields no chunks.  A positive `n` consumes at least
one element per chunk, so `l.length` is always enough fuel. -/
def chunksOf (n : Nat) (l : List α) : List (List α) :=
  match n with
  | 0 => []
  | n + 1 => chunksOfFuel (n + 1) l.length l

/-- SHA-512 padding: append `0x80`, zero bytes up to 112 mod 128, then the
bit length as a 16-byte big-endian integer. -/
def shaPad (m : List Nat) : List Nat :=
  let l := m.length
  let zeros := (112 + 128 - ((l + 1) % 128)) % 128
  m ++ 0x80 :: List.replicate zeros 0 ++ toBytesBE 16 (8 * l)

/-- One step of the message-schedule extension: appends word W_t computed
from the words already in the list (t = current length). -/
def scheduleStep (acc : List Nat) : List Nat :=
  let t := acc.length
  acc ++ [(smallSigma1 (acc.getD (t - 2) 0) + acc.getD (t - 7) 0 +
           smallSigma0 (acc.getD (t - 15) 0) + acc.getD (t - 16) 0) % w64]

/-- The 80-word message schedule of a 128-byte block. -/
def schedule (block : List Nat) : List Nat :=
  scheduleStep^[64] ((chunksOf 8 block).map bytesToNatBE)

/-- The eight 64-bit working variables of the SHA-512 compression loop. -/
structure Sha512State where
  a : Nat
  b : Nat
  c : Nat
  d : Nat
  e : Nat
  f : Nat
  g : Nat
  hh : Nat
deriving Repr, DecidableEq

/-- One SHA-512 round. -/
def sha512Round (kt wt : Nat) (s : Sha512State) : Sha512State :=
  let t1 := (s.hh + bigSigma1 s.e + ch64 s.e s.f s.g + kt + wt) % w64
  let t2 := (bigSigma0 s.a + maj64 s.a s.b s.c) % w64
  { a := (t1 + t2) % w64, b := s.a, c := s.b, d := s.c,
    e := (s.d + t1) % w64, f := s.e, g := s.f, hh := s.g }

/-- Compress one 128-byte block into the running hash value (a list of
eight 64-bit words). -/
def sha512Compress (hs : List Nat) (block : List Nat) : List Nat :=
  let ws := schedule block
  let s0 : Sha512State :=
    { a := hs.getD 0 0, b := hs.getD 1 0, c := hs.getD 2 0, d := hs.getD 3 0,
      e := hs.getD 4 0, f := hs.getD 5 0, g := hs.getD 6 0, hh := hs.getD 7 0 }
  let sf := (List.range 80).foldl
    (fun s t => sha512Round (K512.getD t 0) (ws.getD t 0) s) s0
  [(s0.a + sf.a) % w64, (s0.b + sf.b) % w64, (s0.c + sf.c) % w64,
   (s0.d + sf.d) % w64, (s0.e + sf.e) % w64, (s0.f + sf.f) % w64,
   (s0.g + sf.g) % w64, (s0.hh + sf.hh) % w64]

/-- SHA-512/256 digest of a byte list: 32 bytes (the first four final
hash words, big-endian). -/
def sha512_256 (m : List Nat) : List Nat :=
  let hs := (chunksOf 128 (shaPad m)).foldl sha512Compress IV512_256
  toBytesBE 8 (hs.getD 0 0) ++ toBytesBE 8 (hs.getD 1 0) ++
  toBytesBE 8 (hs.getD 2 0) ++ toBytesBE 8 (hs.getD 3 0)

/-! ## DNS message model (boundary model of `miekg/dns`)

Only the fields read or written by `plugin_cache.go` are modelled.  A
resource record is reduced to its TTL plus an opaque payload identifier
`rdata`; message copies (`dns.Msg.Copy`) are deep copies, which under
the value semantics of this section is the identity (aliasing is
treated separately in the heap-model section below). -/

/-- One question record: wire-format name bytes, type and class. -/
structure Question where
  name : List Nat
  qtype : Nat
  qclass : Nat
deriving Repr, DecidableEq

/-- One resource record, reduced to the fields the cache touches. -/
structure RR where
  ttl : Nat
  rdata : Nat
deriving Repr, DecidableEq

/-- A DNS message, restricted to the fields `plugin_cache.go` reads or
writes (`ns` is Go's `msg.Ns`, the authority section). -/
structure Msg where
  id : Nat
  response : Bool
  truncated : Bool
  compress : Bool
  rcode : Nat
  question : List Question
  answer : List RR
  ns : List RR
  extra : List RR
deriving Repr, DecidableEq

/-- Go constant `dns.RcodeSuccess`. -/
def RcodeSuccess : Nat := 0

/-- Go constant `dns.RcodeNameError`. -/
def RcodeNameError : Nat := 3

/-- Go constant `dns.RcodeNotAuth`. -/
def RcodeNotAuth : Nat := 9

/-! ## Pipeline state model -/

/-- The plugin pipeline's action slot (`pluginsState.action`). -/
inductive PluginsAction where
  | Continue
  | Drop
  | Reject
  | Synth
deriving Repr, DecidableEq

/-- The per-query pipeline state, restricted to the fields
`plugin_cache.go` reads or writes.  Go's
`sessionData["stale"]` entry is modelled by the dedicated option field
`sessionDataStale`. -/
structure PluginsState where
  action : PluginsAction
  synthResponse : Option Msg
  dnssec : Bool
  cacheSize : Nat
  cacheNegMinTTL : Nat
  cacheNegMaxTTL : Nat
  cacheMinTTL : Nat
  cacheMaxTTL : Nat
  cacheHit : Bool
  sessionDataStale : Option Msg
deriving Repr, DecidableEq

/-! ## Helpers from elsewhere in the repository (spec-modelled) -/

/-- Modelled from the spec: `NormalizeRawQName` (repository code outside
the provided source file) canonicalizes a raw question name by
lower-casing ASCII letters (byte values 65..90) and leaving every other
byte unchanged. -/
def NormalizeRawQName (name : List Nat) : List Nat :=
  name.map (fun b => if 65 ≤ b ∧ b ≤ 90 then b + 32 else b)

/-- Modelled from the spec: `updateTTL` (repository code outside the
provided source file) rewrites every record TTL of the message's answer,
authority and additional sections to the remaining time until
`expiration` (zero when `expiration` is already past; `Nat` subtraction
truncates). -/
def updateTTL (now : Nat) (msg : Msg) (expiration : Nat) : Msg :=
  let t := expiration - now
  { msg with
    answer := msg.answer.map (fun r => { r with ttl := t }),
    ns := msg.ns.map (fun r => { r with ttl := t }),
    extra := msg.extra.map (fun r => { r with ttl := t }) }

/-- Modelled from the spec: `getMinTTL` (repository code outside the
provided source file) classifies the response as positive (success with
at least one answer record) or negative, takes the smallest TTL among
the records of the relevant section (answer resp. authority; the
matching max bound when that section is empty), and clamps it into the
matching `[min, max]` bound pair. -/
def getMinTTL (msg : Msg) (minTTL maxTTL negMinTTL negMaxTTL : Nat) : Nat :=
  if msg.rcode = RcodeSuccess ∧ msg.answer ≠ [] then
    min maxTTL (max minTTL ((msg.answer.map RR.ttl).foldl min maxTTL))
  else
    min negMaxTTL (max negMinTTL ((msg.ns.map RR.ttl).foldl min negMaxTTL))

/-! ## Boundary model of the external sieve cache -/

/-- A cached entry: absolute expiration plus the stored message
(`CachedResponse` in the source). -/
structure CachedResponse where
  expiration : Nat
  msg : Msg
deriving Repr, DecidableEq

/-- Boundary model of the external
`sievecache.ShardedSieveCache[[32]byte, CachedResponse]`: a key→value
map with `get` and `insert`.  Capacity enforcement and eviction are the
store's own opaque policy and are not modelled. -/
structure SieveCache where
  entries : List (List Nat × CachedResponse)
deriving Repr, DecidableEq

/-- Store lookup (`cache.Get`). -/
def SieveCache.get (c : SieveCache) (k : List Nat) : Option CachedResponse :=
  (c.entries.find? (fun p => p.1 == k)).map Prod.snd

/-- Store insertion (`cache.Insert`): replaces any entry with the same
key. -/
def SieveCache.insert (c : SieveCache) (k : List Nat) (v : CachedResponse) : SieveCache :=
  ⟨(k, v) :: c.entries.filter (fun p => !(p.1 == k))⟩

/-- Boundary model of `sievecache.NewSharded`: construction fails
exactly on an invalid (zero) capacity. -/
def NewSharded (capacity : Nat) : Except String SieveCache :=
  if capacity = 0 then .error "capacity must be positive" else .ok ⟨[]⟩

/-- The process-wide singleton `cachedResponses`: the optional store
plus the state of the `sync.Once` guard (`true` once `Do` has run its
closure, whether or not construction succeeded).  The mutex field is
never exercised on the modelled paths and is omitted. -/
structure CachedResponses where
  cache : Option SieveCache
  cacheOnceDone : Bool
deriving Repr, DecidableEq

/-! ## The cache core (`plugin_cache.go`) -/

/-- Go constant `StaleResponseTTL = 30 * time.Second`, in seconds. -/
def StaleResponseTTL : Nat := 30

/-- The two bytes written by Go's `binary.LittleEndian.PutUint16`. -/
def putUint16LE (v : Nat) : List Nat := [v % 256, (v >>> 8) % 256]

/-- Source function `computeCacheKey`: the 5-byte header (little-endian type, little-
endian class, DNSSEC flag byte) followed by the normalized name bytes,
hashed with SHA-512/256.  Go's incremental `h.Write`/`h.Write`/`h.Sum`
digests the concatenation of the written byte strings.  `msg.Question[0]`
panics on an empty question section, modelled by `none`. -/
def computeCacheKey (ps : PluginsState) (msg : Msg) : Option (List Nat) :=
  match msg.question with
  | [] => none
  | question :: _ =>
    let tmp := putUint16LE question.qtype ++ putUint16LE question.qclass ++
               [if ps.dnssec then 1 else 0]
    some (sha512_256 (tmp ++ NormalizeRawQName question.name))

/-- Source method `PluginCache.Eval`, the cache reader.  Here `now` stands for the calls to
`time.Now()`; the global `cachedResponses` is read only.  The result is
the updated `pluginsState` (`none` models the panic on a message without
questions). -/
def PluginCacheEval (now : Nat) (cachedResponses : CachedResponses)
    (ps : PluginsState) (msg : Msg) : Option PluginsState :=
  match computeCacheKey ps msg with
  | none => none
  | some cacheKey =>
    match cachedResponses.cache with
    | none => some ps
    | some cache =>
      match cache.get cacheKey with
      | none => some ps
      | some cached =>
        let expiration := cached.expiration
        let synth := cached.msg
        let synth := { synth with
          id := msg.id, response := true, compress := true,
          question := msg.question }
        if expiration < now then
          let expiration2 := now + StaleResponseTTL
          let synth := updateTTL now synth expiration2
          some { ps with sessionDataStale := some synth }
        else
          let synth := updateTTL now synth expiration
          some { ps with synthResponse := some synth,
                         action := PluginsAction.Synth, cacheHit := true }

/-- Source method `PluginCacheResponse.Eval`, the cache writer.  Returns the updated
global singleton together with `.ok` of the (possibly TTL-rewritten)
response message, or `.error` when store construction fails on this
call; `none` models the panic on a message without questions.  The
`sync.Once` closure runs only when the guard is still unset and marks
the guard done even when construction fails. -/
def PluginCacheResponseEval (now : Nat) (cachedResponses : CachedResponses)
    (ps : PluginsState) (msg : Msg) :
    Option (CachedResponses × Except String Msg) :=
  if msg.rcode ≠ RcodeSuccess ∧ msg.rcode ≠ RcodeNameError ∧ msg.rcode ≠ RcodeNotAuth then
    some (cachedResponses, .ok msg)
  else if msg.truncated then
    some (cachedResponses, .ok msg)
  else
    match computeCacheKey ps msg with
    | none => none
    | some cacheKey =>
      let ttl := getMinTTL msg ps.cacheMinTTL ps.cacheMaxTTL
        ps.cacheNegMinTTL ps.cacheNegMaxTTL
      let cachedResponse : CachedResponse := { expiration := now + ttl, msg := msg }
      let onceResult : CachedResponses × Option String :=
        if cachedResponses.cacheOnceDone then (cachedResponses, none)
        else
          match NewSharded ps.cacheSize with
          | .error e => ({ cachedResponses with cacheOnceDone := true }, some e)
          | .ok cache => ({ cache := some cache, cacheOnceDone := true }, none)
      match onceResult with
      | (cr1, some e) =>
        some (cr1, .error ("failed to initialize the cache: " ++ e))
      | (cr1, none) =>
        let cr2 := match cr1.cache with
          | some cache => { cr1 with cache := some (cache.insert cacheKey cachedResponse) }
          | none => cr1
        some (cr2, .ok (updateTTL now msg cachedResponse.expiration))

/-! ## Heap model for aliasing (frame effects)

Go's `dns.RR` entries are interface values holding pointers:
`synth := cached.msg.Copy()` (line 83) deep-copies every record, while
`CachedResponse{msg: *msg}` (line 146) copies the `Msg` struct by value
but keeps the same record pointers.  To settle the aliasing claim, the
message model is refined: a record is a heap identifier, mutable TTLs
live in a heap, and `Copy` allocates fresh identifiers. -/

/-- A message whose records are heap identifiers (aliasing-aware
refinement of `Msg`). -/
structure HMsg where
  id : Nat
  response : Bool
  compress : Bool
  question : List Question
  answer : List Nat
  ns : List Nat
  extra : List Nat
deriving Repr, DecidableEq

/-- All record identifiers of a message, in section order. -/
def HMsg.recIds (m : HMsg) : List Nat := m.answer ++ m.ns ++ m.extra

/-- The record heap: the TTL stored at each record identifier, plus the
next free identifier (allocation counter). -/
structure Heap where
  ttl : Nat → Nat
  next : Nat

/-- Mutate one record's TTL in place (`rr.Header().Ttl = v`). -/
def Heap.write (h : Heap) (i v : Nat) : Heap :=
  { h with ttl := fun j => if j = i then v else h.ttl j }

/-- Mutate the TTLs of a list of records in place. -/
def Heap.writeAll (h : Heap) (ids : List Nat) (v : Nat) : Heap :=
  ids.foldl (fun h2 i => h2.write i v) h

/-- Allocate fresh identifiers carrying the same TTL values as `ids`
(one deep-copied record section). -/
def Heap.allocCopy (h : Heap) (ids : List Nat) : Heap × List Nat :=
  let n := ids.length
  ({ ttl := fun j =>
       if h.next ≤ j ∧ j < h.next + n then h.ttl (ids.getD (j - h.next) 0)
       else h.ttl j,
     next := h.next + n },
   (List.range n).map (fun i => h.next + i))

/-- Model of `dns.Msg.Copy`: a deep copy allocates fresh records for every
section, preserving their TTL values. -/
def HMsg.copy (h : Heap) (m : HMsg) : Heap × HMsg :=
  let p1 := h.allocCopy m.answer
  let p2 := p1.1.allocCopy m.ns
  let p3 := p2.1.allocCopy m.extra
  (p3.1, { m with answer := p1.2, ns := p2.2, extra := p3.2 })

/-- A cached entry under the heap model. -/
structure HCachedResponse where
  expiration : Nat
  msg : HMsg
deriving Repr, DecidableEq

/-- Function `updateTTL` under the heap model: mutates every record of the
message in place to the remaining time until `expiration` (modelled
from the spec, as `updateTTL` itself is repository code outside the
provided source file). -/
def updateTTLHeap (now : Nat) (h : Heap) (m : HMsg) (expiration : Nat) : Heap :=
  h.writeAll m.recIds (expiration - now)

/-- The TTLs of a message's records as currently observable through the
heap. -/
def obsTTLs (h : Heap) (m : HMsg) : List Nat := m.recIds.map h.ttl

/-- The reader's hit path (lines 82–102) under the heap model: deep-copy
the stored message, overwrite its header fields, and rewrite the copy's
record TTLs (to the grace window on a stale hit, to the remaining
lifetime on a fresh hit).  Returns the new heap, the synthesized
message, and whether the hit was stale. -/
def readerHit (now : Nat) (h : Heap) (cached : HCachedResponse) (msg : HMsg) :
    Heap × HMsg × Bool :=
  let p := HMsg.copy h cached.msg
  let synth := { p.2 with
    id := msg.id, response := true, compress := true, question := msg.question }
  if cached.expiration < now then
    (updateTTLHeap now p.1 synth (now + StaleResponseTTL), synth, true)
  else
    (updateTTLHeap now p.1 synth cached.expiration, synth, false)

/-- The writer's store path (lines 144–163) under the heap model, with
the store already constructed: the entry stores the message struct by
value — keeping the same record identifiers, as Go's `msg: *msg` keeps
the record pointers — and `updateTTL` then mutates the original
message's records to the stored expiration. -/
def writerRecord (now ttl : Nat) (h : Heap)
    (cache : List (List Nat × HCachedResponse)) (key : List Nat) (msg : HMsg) :
    Heap × List (List Nat × HCachedResponse) :=
  let entry : HCachedResponse := { expiration := now + ttl, msg := msg }
  let cache2 := (key, entry) :: cache.filter (fun p => !(p.1 == key))
  (updateTTLHeap now h msg (now + ttl), cache2)

/-! ## Specification-side definitions

These follow the words of the specification (not the source), for the
refinement-style claims comparing the code against them. -/

/-- The cache key as the specification words it: a 5-byte header — the
2-byte little-endian question type, the 2-byte little-endian question
class, and a flag byte that is 1 exactly when DNSSEC was requested —
followed by the case-normalized name bytes, hashed with SHA-512/256. -/
def specCacheKey (qtype qclass : Nat) (dnssec : Bool) (name : List Nat) : List Nat :=
  sha512_256 ([qtype % 256, (qtype >>> 8) % 256, qclass % 256, (qclass >>> 8) % 256,
               if dnssec then 1 else 0] ++ NormalizeRawQName name)

/-- Two name bytes are equal up to ASCII case: equal outright, or the
same letter in the two cases. -/
def byteEqUpToCase (a b : Nat) : Prop :=
  a = b ∨ (65 ≤ a ∧ a ≤ 90 ∧ b = a + 32) ∨ (65 ≤ b ∧ b ≤ 90 ∧ a = b + 32)

instance (a b : Nat) : Decidable (byteEqUpToCase a b) := by
  unfold byteEqUpToCase; infer_instance

/-- Two question names are equal up to ASCII case, byte for byte. -/
def nameEqUpToCase (x y : List Nat) : Prop := List.Forall₂ byteEqUpToCase x y

instance (x y : List Nat) : Decidable (nameEqUpToCase x y) := by
  unfold nameEqUpToCase; infer_instance

/-- The header overwrite the reader applies to the copied message
(lines 85–88): the query's transaction id, the response flag,
compression, and the query's question section verbatim. -/
def withQueryHeader (m : Msg) (query : Msg) : Msg :=
  { m with id := query.id, response := true, compress := true,
           question := query.question }

/-! ## Concrete fixtures (used by witnesses and counterexamples) -/

/-- A typical pipeline state: DNSSEC not requested, usual TTL bounds. -/
def psEx : PluginsState :=
  { action := .Continue, synthResponse := none, dnssec := false, cacheSize := 100,
    cacheNegMinTTL := 60, cacheNegMaxTTL := 600, cacheMinTTL := 60, cacheMaxTTL := 86400,
    cacheHit := false, sessionDataStale := none }

/-- The pipeline state with an invalid (zero) cache capacity. -/
def psZeroCap : PluginsState := { psEx with cacheSize := 0 }

/-- An A/IN question for `example.com.` (wire-format name bytes). -/
def qEx : Question :=
  { name := [7, 101, 120, 97, 109, 112, 108, 101, 3, 99, 111, 109, 0],
    qtype := 1, qclass := 1 }

/-- An incoming query for `qEx`. -/
def msgEx : Msg :=
  { id := 77, response := false, truncated := false, compress := false, rcode := 0,
    question := [qEx], answer := [{ ttl := 120, rdata := 1 }], ns := [], extra := [] }

/-- An upstream response for `qEx` with one answer record of TTL 120. -/
def respEx : Msg :=
  { id := 5, response := true, truncated := false, compress := false, rcode := 0,
    question := [qEx], answer := [{ ttl := 120, rdata := 1 }], ns := [], extra := [] }

/-- A query message with an empty question section. -/
def msgNoQ : Msg := { msgEx with question := [] }

/-- A server-failure response (rcode 2). -/
def msgServFail : Msg := { respEx with rcode := 2 }

/-- The derived cache key of `msgEx` under `psEx`. -/
def keyEx : List Nat := (computeCacheKey psEx msgEx).getD []

/-- A cache entry for `respEx` expiring at time 100. -/
def entryEx : CachedResponse := { expiration := 100, msg := respEx }

/-- A store holding exactly `entryEx` under `keyEx`. -/
def cacheEx : SieveCache := ⟨[(keyEx, entryEx)]⟩

/-- A constructed global singleton holding `cacheEx`. -/
def crEx : CachedResponses := { cache := some cacheEx, cacheOnceDone := true }

/-- A query for `Example.COM.` (mixed case, presentation bytes). -/
def msgUpperCase : Msg :=
  { msgEx with question :=
      [{ name := [69, 120, 97, 109, 112, 108, 101, 46, 67, 79, 77, 46],
         qtype := 1, qclass := 1 }] }

/-- The same query for `example.com.` in lower case. -/
def msgLowerCase : Msg :=
  { msgEx with question :=
      [{ name := [101, 120, 97, 109, 112, 108, 101, 46, 99, 111, 109, 46],
         qtype := 1, qclass := 1 }] }

/-- The derived cache key of the response `respEx` under `psEx`. -/
def keyRespEx : List Nat := (computeCacheKey psEx respEx).getD []

/-- A heap with records 0, 1, 2 allocated (counter 3), every TTL 7. -/
def heapEx : Heap := { ttl := fun _ => 7, next := 3 }

/-- A stored message under the heap model, owning records 0 (answer),
1 (authority) and 2 (additional). -/
def hmsgStored : HMsg :=
  { id := 1, response := true, compress := true, question := [qEx],
    answer := [0], ns := [1], extra := [2] }

/-- A cache entry for `hmsgStored` expiring at time 100. -/
def hEntryEx : HCachedResponse := { expiration := 100, msg := hmsgStored }

/-- An incoming query under the heap model (no records of its own). -/
def hQueryEx : HMsg :=
  { id := 4, response := false, compress := false, question := [qEx],
    answer := [], ns := [], extra := [] }

/-- A single-record heap for the C7 counterexample: record 0 allocated
(counter 1), TTL 50. -/
def hC7 : Heap := { ttl := fun _ => 50, next := 1 }

/-- An upstream response under the heap model owning record 0. -/
def mC7 : HMsg :=
  { id := 9, response := true, compress := false, question := [qEx],
    answer := [0], ns := [], extra := [] }

/-! ## Helper lemmas -/

/-- SHA-512/256 always produces 32 bytes. -/
theorem sha512_256_length (m : List Nat) : (sha512_256 m).length = 32 := by
  simp [sha512_256, toBytesBE]

/-- Case-equivalent bytes normalize to the same byte. -/
theorem normByte_eq_of_byteEqUpToCase {a b : Nat} (hab : byteEqUpToCase a b) :
    (if 65 ≤ a ∧ a ≤ 90 then a + 32 else a) =
    (if 65 ≤ b ∧ b ≤ 90 then b + 32 else b) := by
  unfold byteEqUpToCase at hab
  split_ifs <;> omega

/-- Case-equivalent names normalize to the same byte string. -/
theorem NormalizeRawQName_eq_of_eqUpToCase {x y : List Nat}
    (h : nameEqUpToCase x y) : NormalizeRawQName x = NormalizeRawQName y := by
  unfold nameEqUpToCase at h
  induction h with
  | nil => rfl
  | cons hab _ ih =>
    unfold NormalizeRawQName at ih ⊢
    simp only [List.map_cons, List.cons.injEq]
    exact ⟨normByte_eq_of_byteEqUpToCase hab, ih⟩

/-! ## Claim theorems -/

/-- C1: for every query message with at least one question, the derived
cache key equals SHA-512/256 applied to the concatenation of the 5-byte
header (2-byte little-endian question type, 2-byte little-endian
question class, a flag byte that is 1 exactly when DNSSEC was
requested) followed by the case-normalized question-name bytes, and the
key is 32 bytes long. -/
theorem C1_cacheKey_is_spec_digest (ps : PluginsState) (msg : Msg)
    (q : Question) (rest : List Question) (h : msg.question = q :: rest) :
    computeCacheKey ps msg = some (specCacheKey q.qtype q.qclass ps.dnssec q.name) ∧
    (specCacheKey q.qtype q.qclass ps.dnssec q.name).length = 32 := by
  refine ⟨?_, sha512_256_length _⟩
  simp [computeCacheKey, h, specCacheKey, putUint16LE]

/-- Witness for C1 at a concrete A/IN query for `example.com.`. -/
theorem C1_witness :
    computeCacheKey psEx msgEx =
      some (specCacheKey qEx.qtype qEx.qclass psEx.dnssec qEx.name) ∧
    (specCacheKey qEx.qtype qEx.qclass psEx.dnssec qEx.name).length = 32 :=
  C1_cacheKey_is_spec_digest psEx msgEx qEx [] rfl

/-- C9: two queries whose question names are equal up to ASCII case and
whose question type, question class and DNSSEC-request flag agree derive
byte-equal cache keys; the key depends on nothing else in the query or
the pipeline state. -/
theorem C9_key_depends_only_on_fields (ps1 ps2 : PluginsState) (m1 m2 : Msg)
    (q1 q2 : Question) (r1 r2 : List Question)
    (h1 : m1.question = q1 :: r1) (h2 : m2.question = q2 :: r2)
    (hname : nameEqUpToCase q1.name q2.name)
    (htype : q1.qtype = q2.qtype) (hclass : q1.qclass = q2.qclass)
    (hsec : ps1.dnssec = ps2.dnssec) :
    computeCacheKey ps1 m1 = computeCacheKey ps2 m2 := by
  simp [computeCacheKey, h1, h2, htype, hclass, hsec,
        NormalizeRawQName_eq_of_eqUpToCase hname]

/-- Witness for C9: `Example.COM.` and `example.com.` derive the same
key. -/
theorem C9_witness :
    computeCacheKey psEx msgUpperCase = computeCacheKey psEx msgLowerCase :=
  C9_key_depends_only_on_fields psEx psEx msgUpperCase msgLowerCase _ _ [] []
    rfl rfl (by decide) rfl rfl rfl

/-- C10: key derivation reads the first question unconditionally, so on
a message with zero questions it panics (is not total), and both the
reader and — once its rcode/truncation preconditions pass — the writer
panic as well. -/
theorem C10_zero_questions_panic (now : Nat) (cr : CachedResponses)
    (ps : PluginsState) (msg : Msg) (hq : msg.question = []) :
    computeCacheKey ps msg = none ∧
    PluginCacheEval now cr ps msg = none ∧
    ((msg.rcode = RcodeSuccess ∨ msg.rcode = RcodeNameError ∨ msg.rcode = RcodeNotAuth) →
      msg.truncated = false →
      PluginCacheResponseEval now cr ps msg = none) := by
  have hk : computeCacheKey ps msg = none := by simp [computeCacheKey, hq]
  refine ⟨hk, by simp [PluginCacheEval, hk], ?_⟩
  intro hrc htr
  rcases hrc with h | h | h <;>
    simp [PluginCacheResponseEval, hk, htr, h,
          RcodeSuccess, RcodeNameError, RcodeNotAuth]

/-- Witness for C10 at a concrete cacheable message without
questions. -/
theorem C10_witness :
    computeCacheKey psEx msgNoQ = none ∧
    PluginCacheEval 0 ⟨none, false⟩ psEx msgNoQ = none ∧
    ((msgNoQ.rcode = RcodeSuccess ∨ msgNoQ.rcode = RcodeNameError ∨
      msgNoQ.rcode = RcodeNotAuth) →
      msgNoQ.truncated = false →
      PluginCacheResponseEval 0 ⟨none, false⟩ psEx msgNoQ = none) :=
  C10_zero_questions_panic 0 ⟨none, false⟩ psEx msgNoQ rfl

/-- Counterexample to C8 as stated: the reader does not return success
for *all* inputs — on a query with zero questions it panics
(`msg.Question[0]` out of bounds), modelled by `none`. -/
theorem C8_counterexample :
    PluginCacheEval 0 ⟨none, false⟩ psEx msgNoQ = none := rfl

/-- C8 (amended): for every query with at least one question the
reader's lookup never fails, and when the store has never been
constructed, or the key is absent, it behaves as a miss leaving the
query state unmodified. -/
theorem C8_reader_total_and_miss (now : Nat) (cr : CachedResponses)
    (ps : PluginsState) (msg : Msg) (q : Question) (rest : List Question)
    (hq : msg.question = q :: rest) :
    (∃ ps2, PluginCacheEval now cr ps msg = some ps2) ∧
    (cr.cache = none → PluginCacheEval now cr ps msg = some ps) ∧
    (∀ cache k, cr.cache = some cache → computeCacheKey ps msg = some k →
      cache.get k = none → PluginCacheEval now cr ps msg = some ps) := by
  have hex : ∃ k0, computeCacheKey ps msg = some k0 := by
    unfold computeCacheKey
    rw [hq]
    exact ⟨_, rfl⟩
  obtain ⟨k0, hk⟩ := hex
  refine ⟨?_, ?_, ?_⟩
  · unfold PluginCacheEval
    rw [hk]
    dsimp only
    cases cr.cache with
    | none => exact ⟨ps, rfl⟩
    | some cache =>
      dsimp only
      cases cache.get k0 with
      | none => exact ⟨ps, rfl⟩
      | some cached =>
        dsimp only
        split
        · exact ⟨_, rfl⟩
        · exact ⟨_, rfl⟩
  · intro hc
    simp [PluginCacheEval, hk, hc]
  · intro cache k hc hkk hg
    rw [hk] at hkk
    obtain rfl := Option.some.inj hkk
    simp [PluginCacheEval, hk, hc, hg]

/-- Witness for the amended C8 at a concrete query against the
never-constructed store. -/
theorem C8_witness :
    (∃ ps2, PluginCacheEval 0 ⟨none, false⟩ psEx msgEx = some ps2) ∧
    ((⟨none, false⟩ : CachedResponses).cache = none →
      PluginCacheEval 0 ⟨none, false⟩ psEx msgEx = some psEx) ∧
    (∀ cache k, (⟨none, false⟩ : CachedResponses).cache = some cache →
      computeCacheKey psEx msgEx = some k →
      cache.get k = none → PluginCacheEval 0 ⟨none, false⟩ psEx msgEx = some psEx) :=
  C8_reader_total_and_miss 0 ⟨none, false⟩ psEx msgEx qEx [] rfl

/-- C5: a response whose status is not in {success, name-error,
not-authoritative}, or whose truncation flag is set, makes the writer a
success-valued no-op: the global singleton is untouched (in particular
no construction attempt) and the message is not rewritten. -/
theorem C5_uncacheable_noop (now : Nat) (cr : CachedResponses)
    (ps : PluginsState) (msg : Msg)
    (h : (msg.rcode ≠ RcodeSuccess ∧ msg.rcode ≠ RcodeNameError ∧
          msg.rcode ≠ RcodeNotAuth) ∨ msg.truncated = true) :
    PluginCacheResponseEval now cr ps msg = some (cr, .ok msg) := by
  rcases h with h | h
  · simp [PluginCacheResponseEval, h.1, h.2.1, h.2.2]
  · simp [PluginCacheResponseEval, h]

/-- Witness for C5 at a concrete server-failure response. -/
theorem C5_witness :
    PluginCacheResponseEval 0 ⟨none, false⟩ psEx msgServFail =
      some (⟨none, false⟩, .ok msgServFail) :=
  C5_uncacheable_noop 0 ⟨none, false⟩ psEx msgServFail (by decide)

/-- Every record TTL after `updateTTL` equals the remaining time until
`expiration`. -/
theorem updateTTL_ttls (now e : Nat) (m : Msg) :
    (∀ r ∈ (updateTTL now m e).answer, r.ttl = e - now) ∧
    (∀ r ∈ (updateTTL now m e).ns, r.ttl = e - now) ∧
    (∀ r ∈ (updateTTL now m e).extra, r.ttl = e - now) := by
  refine ⟨?_, ?_, ?_⟩ <;>
  · intro r hr
    simp [updateTTL, List.mem_map] at hr
    obtain ⟨r0, _, rfl⟩ := hr
    rfl

/-- Rewriting TTLs with `updateTTL` leaves every record payload unchanged. -/
theorem updateTTL_rdata (now e : Nat) (m : Msg) :
    (updateTTL now m e).answer.map RR.rdata = m.answer.map RR.rdata ∧
    (updateTTL now m e).ns.map RR.rdata = m.ns.map RR.rdata ∧
    (updateTTL now m e).extra.map RR.rdata = m.extra.map RR.rdata := by
  refine ⟨?_, ?_, ?_⟩ <;> simp [updateTTL, List.map_map]

/-- Counterexample to C3 as stated: at a lookup time exactly *at* the
entry's expiration the code takes the fresh-hit path (`time.Now().After`
is strict): the query is answered and marked a cache hit, and no stale
candidate is produced. -/
theorem C3_counterexample :
    entryEx.expiration = 100 ∧
    PluginCacheEval 100 crEx psEx msgEx =
      some { psEx with
        synthResponse :=
          some (updateTTL 100 (withQueryHeader respEx msgEx) entryEx.expiration),
        action := PluginsAction.Synth, cacheHit := true } :=
  ⟨rfl, by decide⟩

/-- C3 (amended): for every lookup strictly after the entry's
expiration, the lookup is a stale hit: the synthesized copy's record
TTLs are rewritten to the fixed grace window `now + StaleResponseTTL`
(independent of the policy bounds), the message is placed in the
stale-candidate slot, and the query is neither marked answered nor
marked a cache hit (the returned state changes only in
`sessionDataStale`); the reader takes no reference to the store that
could mutate it. -/
theorem C3_stale_hit (now : Nat) (cr : CachedResponses) (cache : SieveCache)
    (ps : PluginsState) (msg : Msg) (k : List Nat) (cached : CachedResponse)
    (hc : cr.cache = some cache)
    (hk : computeCacheKey ps msg = some k)
    (hget : cache.get k = some cached)
    (hexp : cached.expiration < now) :
    PluginCacheEval now cr ps msg =
      some { ps with
             sessionDataStale := some (updateTTL now
               (withQueryHeader cached.msg msg) (now + StaleResponseTTL)) } ∧
    (∀ r ∈ (updateTTL now (withQueryHeader cached.msg msg)
        (now + StaleResponseTTL)).answer, r.ttl = StaleResponseTTL) ∧
    (∀ r ∈ (updateTTL now (withQueryHeader cached.msg msg)
        (now + StaleResponseTTL)).ns, r.ttl = StaleResponseTTL) ∧
    (∀ r ∈ (updateTTL now (withQueryHeader cached.msg msg)
        (now + StaleResponseTTL)).extra, r.ttl = StaleResponseTTL) := by
  obtain ⟨ha, hn, he⟩ := updateTTL_ttls now (now + StaleResponseTTL)
    (withQueryHeader cached.msg msg)
  refine ⟨by simp [PluginCacheEval, withQueryHeader, hk, hc, hget, hexp],
    ?_, ?_, ?_⟩
  · intro r hr; have := ha r hr; omega
  · intro r hr; have := hn r hr; omega
  · intro r hr; have := he r hr; omega

/-- Witness for the amended C3: lookup at time 101 of the entry expiring
at 100. -/
theorem C3_witness :
    PluginCacheEval 101 crEx psEx msgEx =
      some { psEx with
             sessionDataStale := some (updateTTL 101
               (withQueryHeader entryEx.msg msgEx) (101 + StaleResponseTTL)) } ∧
    (∀ r ∈ (updateTTL 101 (withQueryHeader entryEx.msg msgEx)
        (101 + StaleResponseTTL)).answer, r.ttl = StaleResponseTTL) ∧
    (∀ r ∈ (updateTTL 101 (withQueryHeader entryEx.msg msgEx)
        (101 + StaleResponseTTL)).ns, r.ttl = StaleResponseTTL) ∧
    (∀ r ∈ (updateTTL 101 (withQueryHeader entryEx.msg msgEx)
        (101 + StaleResponseTTL)).extra, r.ttl = StaleResponseTTL) :=
  C3_stale_hit 101 crEx cacheEx psEx msgEx keyEx entryEx rfl rfl
    (by decide) (by decide)

/-- C4: for every fresh hit (lookup strictly before the entry's
expiration) the reader answers from cache: the synthesized message is a
private copy of the stored one (same rcode and record payloads) whose
id is the query's, whose response and compression flags are set, whose
question section is the query's verbatim, and whose record TTLs all
equal the remaining time until expiration; the query is marked answered
(action `Synth` with this message) and marked a cache hit. -/
theorem C4_fresh_hit (now : Nat) (cr : CachedResponses) (cache : SieveCache)
    (ps : PluginsState) (msg : Msg) (k : List Nat) (cached : CachedResponse)
    (hc : cr.cache = some cache)
    (hk : computeCacheKey ps msg = some k)
    (hget : cache.get k = some cached)
    (hexp : now < cached.expiration) :
    ∃ synth,
      PluginCacheEval now cr ps msg =
        some { ps with synthResponse := some synth,
                       action := PluginsAction.Synth, cacheHit := true } ∧
      synth.id = msg.id ∧ synth.response = true ∧ synth.compress = true ∧
      synth.question = msg.question ∧
      synth.rcode = cached.msg.rcode ∧
      synth.answer.map RR.rdata = cached.msg.answer.map RR.rdata ∧
      synth.ns.map RR.rdata = cached.msg.ns.map RR.rdata ∧
      synth.extra.map RR.rdata = cached.msg.extra.map RR.rdata ∧
      (∀ r ∈ synth.answer, r.ttl = cached.expiration - now) ∧
      (∀ r ∈ synth.ns, r.ttl = cached.expiration - now) ∧
      (∀ r ∈ synth.extra, r.ttl = cached.expiration - now) := by
  have hnl : ¬ (cached.expiration < now) := by omega
  obtain ⟨ha, hn, he⟩ := updateTTL_ttls now cached.expiration
    (withQueryHeader cached.msg msg)
  obtain ⟨ra, rn, re⟩ := updateTTL_rdata now cached.expiration
    (withQueryHeader cached.msg msg)
  exact ⟨updateTTL now (withQueryHeader cached.msg msg) cached.expiration,
    by simp [PluginCacheEval, withQueryHeader, hk, hc, hget, hnl],
    rfl, rfl, rfl, rfl, rfl, ra, rn, re, ha, hn, he⟩

/-- Witness for C4: lookup at time 40 of the entry expiring at 100. -/
theorem C4_witness :
    ∃ synth,
      PluginCacheEval 40 crEx psEx msgEx =
        some { psEx with synthResponse := some synth,
                         action := PluginsAction.Synth, cacheHit := true } ∧
      synth.id = msgEx.id ∧ synth.response = true ∧ synth.compress = true ∧
      synth.question = msgEx.question ∧
      synth.rcode = entryEx.msg.rcode ∧
      synth.answer.map RR.rdata = entryEx.msg.answer.map RR.rdata ∧
      synth.ns.map RR.rdata = entryEx.msg.ns.map RR.rdata ∧
      synth.extra.map RR.rdata = entryEx.msg.extra.map RR.rdata ∧
      (∀ r ∈ synth.answer, r.ttl = entryEx.expiration - 40) ∧
      (∀ r ∈ synth.ns, r.ttl = entryEx.expiration - 40) ∧
      (∀ r ∈ synth.extra, r.ttl = entryEx.expiration - 40) :=
  C4_fresh_hit 40 crEx cacheEx psEx msgEx keyEx entryEx rfl rfl
    (by decide) (by decide)

/-- Inserting under a key makes the entry retrievable under that key. -/
theorem SieveCache.get_insert (c : SieveCache) (k : List Nat) (v : CachedResponse) :
    (c.insert k v).get k = some v := by
  simp [SieveCache.get, SieveCache.insert, List.find?]

/-- C6: for every cacheable, non-truncated response (with the store
constructed), the writer stores under the derived key an entry whose
expiration is `now` plus the policy TTL and whose message is the
response, and rewrites the response's own record TTLs to that same
stored expiration (every record TTL becomes the policy TTL). -/
theorem C6_writer_stores_and_rewrites (now : Nat) (cache : SieveCache)
    (ps : PluginsState) (msg : Msg) (k : List Nat) (ttl : Nat)
    (hrc : msg.rcode = RcodeSuccess ∨ msg.rcode = RcodeNameError ∨
           msg.rcode = RcodeNotAuth)
    (htr : msg.truncated = false)
    (hk : computeCacheKey ps msg = some k)
    (httl : ttl = getMinTTL msg ps.cacheMinTTL ps.cacheMaxTTL
                    ps.cacheNegMinTTL ps.cacheNegMaxTTL) :
    PluginCacheResponseEval now ⟨some cache, true⟩ ps msg =
      some (⟨some (cache.insert k { expiration := now + ttl, msg := msg }), true⟩,
        .ok (updateTTL now msg (now + ttl))) ∧
    (cache.insert k { expiration := now + ttl, msg := msg }).get k =
      some { expiration := now + ttl, msg := msg } ∧
    (∀ r ∈ (updateTTL now msg (now + ttl)).answer, r.ttl = ttl) ∧
    (∀ r ∈ (updateTTL now msg (now + ttl)).ns, r.ttl = ttl) ∧
    (∀ r ∈ (updateTTL now msg (now + ttl)).extra, r.ttl = ttl) := by
  subst httl
  obtain ⟨ha, hn, he⟩ := updateTTL_ttls now
    (now + getMinTTL msg ps.cacheMinTTL ps.cacheMaxTTL
      ps.cacheNegMinTTL ps.cacheNegMaxTTL) msg
  refine ⟨?_, SieveCache.get_insert cache k _, ?_, ?_, ?_⟩
  · rcases hrc with h | h | h <;>
      simp [PluginCacheResponseEval, h, htr, hk,
            RcodeSuccess, RcodeNameError, RcodeNotAuth]
  · intro r hr; have := ha r hr; omega
  · intro r hr; have := hn r hr; omega
  · intro r hr; have := he r hr; omega

/-- Witness for C6: recording `respEx` at time 20 into an empty store
(TTL 120 clamped into [60, 86400]). -/
theorem C6_witness :
    PluginCacheResponseEval 20 ⟨some ⟨[]⟩, true⟩ psEx respEx =
      some (⟨some (SieveCache.insert ⟨[]⟩ keyRespEx
              { expiration := 20 + 120, msg := respEx }), true⟩,
        .ok (updateTTL 20 respEx (20 + 120))) ∧
    (SieveCache.insert ⟨[]⟩ keyRespEx
        { expiration := 20 + 120, msg := respEx }).get keyRespEx =
      some { expiration := 20 + 120, msg := respEx } ∧
    (∀ r ∈ (updateTTL 20 respEx (20 + 120)).answer, r.ttl = 120) ∧
    (∀ r ∈ (updateTTL 20 respEx (20 + 120)).ns, r.ttl = 120) ∧
    (∀ r ∈ (updateTTL 20 respEx (20 + 120)).extra, r.ttl = 120) :=
  C6_writer_stores_and_rewrites 20 ⟨[]⟩ psEx respEx keyRespEx 120
    (by decide) rfl rfl (by decide)

/-- C2 (code behavior at the failing input): the first writer call, with
an invalid capacity, returns a construction error and consumes the
once-guard; a second call with a valid capacity does *not* re-attempt
construction — it returns success with the store still absent, so
nothing is cached for the rest of the process lifetime. -/
theorem C2_failed_construction_not_retried :
    PluginCacheResponseEval 10 ⟨none, false⟩ psZeroCap respEx =
      some (⟨none, true⟩,
        .error "failed to initialize the cache: capacity must be positive") ∧
    PluginCacheResponseEval 20 ⟨none, true⟩ psEx respEx =
      some (⟨none, true⟩, .ok (updateTTL 20 respEx 140)) :=
  ⟨rfl, rfl⟩

/-! ## Aliasing lemmas for the heap model (C7) -/

/-- Allocation via `allocCopy` advances the counter by the section length. -/
theorem allocCopy_next (h : Heap) (ids : List Nat) :
    (h.allocCopy ids).1.next = h.next + ids.length := rfl

/-- The identifiers returned by `allocCopy` are exactly the freshly
allocated range. -/
theorem mem_allocCopy {h : Heap} {ids : List Nat} {i : Nat} :
    i ∈ (h.allocCopy ids).2 ↔ h.next ≤ i ∧ i < h.next + ids.length := by
  simp only [Heap.allocCopy, List.mem_map, List.mem_range]
  constructor
  · rintro ⟨a, ha, rfl⟩; omega
  · rintro ⟨h1, h2⟩; exact ⟨i - h.next, by omega, by omega⟩

/-- Copying advances the allocation counter by the total record count. -/
theorem copy_next (h : Heap) (m : HMsg) :
    (HMsg.copy h m).1.next =
      h.next + m.answer.length + m.ns.length + m.extra.length := rfl

/-- Every record of a copy is freshly allocated. -/
theorem copy_recIds_bounds {h : Heap} {m : HMsg} {i : Nat}
    (hi : i ∈ ((HMsg.copy h m).2).recIds) :
    h.next ≤ i ∧ i < (HMsg.copy h m).1.next := by
  rw [copy_next]
  simp only [HMsg.copy, HMsg.recIds, List.mem_append] at hi
  rcases hi with (hA | hN) | hE
  · have := mem_allocCopy.mp hA
    omega
  · have := mem_allocCopy.mp hN
    rw [allocCopy_next] at this
    omega
  · have := mem_allocCopy.mp hE
    rw [allocCopy_next, allocCopy_next] at this
    omega

/-- Writing one record does not move the allocation counter. -/
theorem write_next (h : Heap) (i v : Nat) : (h.write i v).next = h.next := rfl

/-- Writing a list of records does not move the allocation counter. -/
theorem writeAll_next (ids : List Nat) (h : Heap) (v : Nat) :
    (h.writeAll ids v).next = h.next := by
  induction ids generalizing h with
  | nil => rfl
  | cons a l ih =>
    show ((h.write a v).writeAll l v).next = h.next
    rw [ih]
    rfl

/-- The reader's hit path advances the allocation counter by exactly the
stored message's record count (the deep copy). -/
theorem readerHit_next (now : Nat) (h : Heap) (cached : HCachedResponse)
    (msg : HMsg) :
    (readerHit now h cached msg).1.next =
      h.next + cached.msg.answer.length + cached.msg.ns.length +
        cached.msg.extra.length := by
  unfold readerHit
  split <;>
    simp [updateTTLHeap, writeAll_next, copy_next]

/-- The synthesized message of the reader's hit path uses exactly the
freshly copied records. -/
theorem readerHit_synth_bounds {now : Nat} {h : Heap}
    {cached : HCachedResponse} {msg : HMsg} {i : Nat}
    (hi : i ∈ (readerHit now h cached msg).2.1.recIds) :
    h.next ≤ i ∧
    i < h.next + cached.msg.answer.length + cached.msg.ns.length +
          cached.msg.extra.length := by
  unfold readerHit at hi
  split at hi <;>
  · simp only [HMsg.recIds] at hi
    have hb := @copy_recIds_bounds h cached.msg i
      (by simpa [HMsg.recIds] using hi)
    rw [copy_next] at hb
    exact hb

/-- Writing to a record outside a message leaves the message's
observable TTLs unchanged. -/
theorem obsTTLs_write_not_mem {hp : Heap} {m : HMsg} {i v : Nat}
    (hni : i ∉ m.recIds) : obsTTLs (hp.write i v) m = obsTTLs hp m := by
  unfold obsTTLs
  apply List.map_congr_left
  intro j hj
  have hne : j ≠ i := fun e => hni (e ▸ hj)
  simp [Heap.write, hne]

/-- Counterexample to C7 as stated: the writer stores the response
message's records by reference (`CachedResponse{msg: *msg}` copies the
struct but keeps the record pointers), so the stored entry *is* mutated
by later mutation of the original response message.  Concretely: after
recording `mC7` (whose only record is heap cell 0) the stored entry's
message is `mC7` itself, its observable TTL is the stored 60; writing
60→99 through the original message's record changes the entry's
observable TTLs from [60] to [99]. -/
theorem C7_counterexample :
    (writerRecord 100 60 hC7 [] [1, 2, 3] mC7).2 =
      [([1, 2, 3], { expiration := 160, msg := mC7 })] ∧
    obsTTLs (writerRecord 100 60 hC7 [] [1, 2, 3] mC7).1 mC7 = [60] ∧
    obsTTLs ((writerRecord 100 60 hC7 [] [1, 2, 3] mC7).1.write 0 99) mC7 =
      [99] :=
  ⟨rfl, rfl, rfl⟩

/-- C7 (amended): every lookup deep-copies the stored message, so two
successive lookups of the same entry yield message copies whose records
are disjoint from each other and from the stored entry, and mutating a
record of either copy changes neither the other copy's nor the stored
entry's observable TTLs.  (The writer-side aliasing of the stored entry
with the original response message is the `C7_counterexample` above.) -/
theorem C7_lookup_copies_independent (now : Nat) (h : Heap)
    (cached : HCachedResponse) (msg : HMsg)
    (hvalid : ∀ i ∈ cached.msg.recIds, i < h.next) :
    let r1 := readerHit now h cached msg
    let r2 := readerHit now r1.1 cached msg
    (∀ i ∈ r1.2.1.recIds, i ∉ r2.2.1.recIds) ∧
    (∀ i ∈ r1.2.1.recIds, i ∉ cached.msg.recIds) ∧
    (∀ i ∈ r2.2.1.recIds, i ∉ cached.msg.recIds) ∧
    (∀ i ∈ r1.2.1.recIds, ∀ v,
      obsTTLs (r2.1.write i v) r2.2.1 = obsTTLs r2.1 r2.2.1 ∧
      obsTTLs (r2.1.write i v) cached.msg = obsTTLs r2.1 cached.msg) ∧
    (∀ j ∈ r2.2.1.recIds, ∀ v,
      obsTTLs (r2.1.write j v) r1.2.1 = obsTTLs r2.1 r1.2.1 ∧
      obsTTLs (r2.1.write j v) cached.msg = obsTTLs r2.1 cached.msg) := by
  intro r1 r2
  have hnext1 : r1.1.next =
      h.next + cached.msg.answer.length + cached.msg.ns.length +
        cached.msg.extra.length := readerHit_next now h cached msg
  have hb1 : ∀ i ∈ r1.2.1.recIds,
      h.next ≤ i ∧ i < r1.1.next := by
    intro i hi
    have := @readerHit_synth_bounds now h cached msg i hi
    omega
  have hb2 : ∀ i ∈ r2.2.1.recIds,
      r1.1.next ≤ i := by
    intro i hi
    have := @readerHit_synth_bounds now r1.1 cached msg i hi
    omega
  have hmem1 : ∀ i ∈ r1.2.1.recIds, i ∉ r2.2.1.recIds := by
    intro i hi hj
    have b1 := hb1 i hi
    have b2 := hb2 i hj
    omega
  have hmemc1 : ∀ i ∈ r1.2.1.recIds, i ∉ cached.msg.recIds := by
    intro i hi hc
    have b1 := hb1 i hi
    have := hvalid i hc
    omega
  have hmemc2 : ∀ i ∈ r2.2.1.recIds, i ∉ cached.msg.recIds := by
    intro i hi hc
    have b2 := hb2 i hi
    have := hvalid i hc
    omega
  have hmem2 : ∀ j ∈ r2.2.1.recIds, j ∉ r1.2.1.recIds := by
    intro j hj hi
    have b1 := hb1 j hi
    have b2 := hb2 j hj
    omega
  refine ⟨hmem1, hmemc1, hmemc2, ?_, ?_⟩
  · intro i hi v
    exact ⟨obsTTLs_write_not_mem (hmem1 i hi),
           obsTTLs_write_not_mem (hmemc1 i hi)⟩
  · intro j hj v
    exact ⟨obsTTLs_write_not_mem (hmem2 j hj),
           obsTTLs_write_not_mem (hmemc2 j hj)⟩

/-- Witness for the amended C7 at a concrete heap, entry and query. -/
theorem C7_witness :
    let r1 := readerHit 40 heapEx hEntryEx hQueryEx
    let r2 := readerHit 40 r1.1 hEntryEx hQueryEx
    (∀ i ∈ r1.2.1.recIds, i ∉ r2.2.1.recIds) ∧
    (∀ i ∈ r1.2.1.recIds, i ∉ hEntryEx.msg.recIds) ∧
    (∀ i ∈ r2.2.1.recIds, i ∉ hEntryEx.msg.recIds) ∧
    (∀ i ∈ r1.2.1.recIds, ∀ v,
      obsTTLs (r2.1.write i v) r2.2.1 = obsTTLs r2.1 r2.2.1 ∧
      obsTTLs (r2.1.write i v) hEntryEx.msg = obsTTLs r2.1 hEntryEx.msg) ∧
    (∀ j ∈ r2.2.1.recIds, ∀ v,
      obsTTLs (r2.1.write j v) r1.2.1 = obsTTLs r2.1 r1.2.1 ∧
      obsTTLs (r2.1.write j v) hEntryEx.msg = obsTTLs r2.1 hEntryEx.msg) :=
  C7_lookup_copies_independent 40 heapEx hEntryEx hQueryEx (by decide)

end DCProxy
